import Mathlib

/-!
Shallow embedding of the gitness/drone store layer:
`internal/store/database/pipeline.go`, `internal/store/database/repo.go`,
`types/enum/order.go` and the git adapter's `HasBranches`.
Stateful database code is embedded as explicit state passing over a list of
rows; fallible Go code returns `Except`.
-/

namespace Drone

/-- Errors of the store layer.  `wrap msg e` models both `errors.Wrap` and
`fmt.Errorf("...: %w", err)`; `other n` stands for an arbitrary driver or
I/O error. -/
inductive Err where
  | versionConflict
  | notFound
  | noChangeInRequestedMove
  | duplicatePath
  | repositoryPathEmpty
  | other (code : Nat)
  | wrap (msg : String) (e : Err)
deriving DecidableEq

/-- Model of `errors.Is(err, gitness_store.ErrVersionConflict)`: unwraps wrapped
errors while testing for the version-conflict sentinel. -/
def Err.isVersionConflict : Err → Bool
  | .versionConflict => true
  | .wrap _ e => e.isVersionConflict
  | _ => false

/-! ## types/enum/order.go -/

/-- The `Order` sort-order enumeration (`OrderDefault`, `OrderAsc`, `OrderDesc`). -/
inductive Order where
  | orderDefault
  | orderAsc
  | orderDesc
deriving DecidableEq

/-- Model of `Order.String`: `"desc"` for `OrderDesc`, `"asc"` otherwise. -/
def Order.string : Order → String
  | .orderDesc => "desc"
  | _ => "asc"

/-- Model of Go's `strings.ToLower`, character by character (structural on
the character list so that proofs can evaluate it). -/
def toLowerStr (s : String) : String :=
  String.mk (s.data.map Char.toLower)

/-- Model of `ParseOrder`: lower-cases the input and matches the known spellings,
defaulting to `OrderDefault`. -/
def parseOrder (s : String) : Order :=
  match toLowerStr s with
  | "asc" => .orderAsc
  | "ascending" => .orderAsc
  | "desc" => .orderDesc
  | "descending" => .orderDesc
  | _ => .orderDefault

/-! ## git adapter: HasBranches (src/unnamed/part_001) -/

/-- Model of Go's `strings.TrimSpace`: drop leading and trailing whitespace
(structural on the character list so that proofs can evaluate it). -/
def trimSpace (s : String) : String :=
  String.mk (((s.data.dropWhile Char.isWhitespace).reverse.dropWhile Char.isWhitespace).reverse)

/-- Model of `Adapter.HasBranches`: rejects an empty repo path, wraps a failure of the
`git rev-list --max-count 1 --branches` invocation, and otherwise returns
whether the command's standard output is empty after whitespace trimming.
The git invocation itself is external; its outcome is passed in as
`cmd` (standard output on success). -/
def hasBranches (repoPath : String) (cmd : Except Err String) : Except Err Bool :=
  if repoPath = "" then .error .repositoryPathEmpty
  else
    match cmd with
    | .error e => .error (.wrap "failed to trigger rev-list command" e)
    | .ok stdout => .ok (trimSpace stdout == "")

/-! ## internal/store/database/pipeline.go -/

/-- A row of the `pipelines` table / `types.Pipeline`. -/
structure Pipeline where
  id : Int
  description : String
  spaceId : Int
  uid : String
  seq : Int
  repoId : Int
  repoType : String
  repoName : String
  defaultBranch : String
  configPath : String
  created : Int
  updated : Int
  version : Int
deriving DecidableEq

/-- The SET clause of `pipelineUpdateStmt`: the columns written by
`pipelineStore.Update` on a matching row. -/
def applyPipelineUpdateRow (q row : Pipeline) : Pipeline :=
  { row with
    description := q.description
    uid := q.uid
    seq := q.seq
    defaultBranch := q.defaultBranch
    configPath := q.configPath
    updated := q.updated
    version := q.version }

/-- The WHERE clause of `pipelineUpdateStmt`:
`pipeline_id = :pipeline_id AND pipeline_version = :pipeline_version - 1`,
where `q` carries the bound (already incremented) version. -/
def pipelineUpdateMatches (q row : Pipeline) : Bool :=
  row.id == q.id && row.version == q.version - 1

/-- Model of `pipelineStore.Update`: increments the version and stamps `updated` on a
private copy, executes the conditioned UPDATE, returns `ErrVersionConflict`
when zero rows were affected, and otherwise writes the new `version` and
`updated` back to the caller's struct (returned here as the `.ok` payload). -/
def pipelineUpdate (db : List Pipeline) (now : Int) (p : Pipeline) :
    List Pipeline × Except Err Pipeline :=
  if (db.filter (pipelineUpdateMatches { p with version := p.version + 1, updated := now })).length = 0 then
    (db, .error .versionConflict)
  else
    (db.map (fun row =>
       if pipelineUpdateMatches { p with version := p.version + 1, updated := now } row then
         applyPipelineUpdateRow { p with version := p.version + 1, updated := now } row
       else row),
     .ok { p with updated := now, version := p.version + 1 })

deriving instance DecidableEq for Except

/-- One storage response, the environment's answer to one store call made by
a retry loop: `upd (.ok now)` is a successful conditioned UPDATE stamped at
time `now`, `upd (.error e)` a failed one, and `find r` the answer to a
re-read (`pipelineStore.Find`). -/
inductive StoreResp where
  | upd (res : Except Err Int)
  | find (res : Except Err Pipeline)
deriving DecidableEq

/-- Model of `pipelineStore.UpdateOptLock`, run against an arbitrary stream of storage
responses.  Each loop iteration copies the current pipeline, applies
`mutateFn` to the copy (an error aborts immediately), then attempts the
conditioned update; on success the copy — with the version and timestamp the
update wrote back — is returned, a version-conflict error re-reads the entity
and retries from the fresh value, and any other error aborts.  The first
component is `none` when the response stream ran out (the loop is still
running); the second component is the sequence of entity values passed to
`Update`, in order. -/
def updateOptLock (mutateFn : Pipeline → Except Err Pipeline) :
    List StoreResp → Pipeline → Option (Except Err Pipeline) × List Pipeline
  | .upd (.ok now) :: _, p =>
    match mutateFn p with
    | .error e0 => (some (.error e0), [])
    | .ok dup => (some (.ok { dup with version := dup.version + 1, updated := now }), [dup])
  | .upd (.error e) :: .find (.ok found) :: rest2, p =>
    match mutateFn p with
    | .error e0 => (some (.error e0), [])
    | .ok dup =>
      if e.isVersionConflict then
        ((updateOptLock mutateFn rest2 found).1, dup :: (updateOptLock mutateFn rest2 found).2)
      else (some (.error e), [dup])
  | .upd (.error e) :: .find (.error e2) :: _, p =>
    match mutateFn p with
    | .error e0 => (some (.error e0), [])
    | .ok dup =>
      if e.isVersionConflict then (some (.error e2), [dup])
      else (some (.error e), [dup])
  | .upd (.error e) :: _, p =>
    match mutateFn p with
    | .error e0 => (some (.error e0), [])
    | .ok dup =>
      if e.isVersionConflict then (none, [dup])
      else (some (.error e), [dup])
  | _, p =>
    match mutateFn p with
    | .error e0 => (some (.error e0), [])
    | .ok _ => (none, [])

/-- The error message `IncrementSeqNum` wraps around storage errors. -/
def incMsg : String := "could not increment pipeline sequence number"

/-- Model of `pipelineStore.IncrementSeqNum`, run against the same kind of response
stream.  It increments `Seq` on the caller's struct itself, attempts the
conditioned update, and on a non-conflict failure returns that (mutated)
struct together with the wrapped error; a conflict re-reads and retries, a
failed re-read returns `nil` plus the wrapped error.  The Go result pair
`(*types.Pipeline, error)` is modelled as `Option Pipeline × Option Err`. -/
def incrementSeqNum :
    List StoreResp → Pipeline → Option (Option Pipeline × Option Err) × List Pipeline
  | .upd (.ok now) :: _, p =>
    (some (some { p with seq := p.seq + 1, version := p.version + 1, updated := now }, none),
     [{ p with seq := p.seq + 1 }])
  | .upd (.error e) :: .find (.ok found) :: rest2, p =>
    if e.isVersionConflict then
      ((incrementSeqNum rest2 found).1,
       { p with seq := p.seq + 1 } :: (incrementSeqNum rest2 found).2)
    else
      (some (some { p with seq := p.seq + 1 }, some (.wrap incMsg e)), [{ p with seq := p.seq + 1 }])
  | .upd (.error e) :: .find (.error e2) :: _, p =>
    if e.isVersionConflict then
      (some (none, some (.wrap incMsg e2)), [{ p with seq := p.seq + 1 }])
    else
      (some (some { p with seq := p.seq + 1 }, some (.wrap incMsg e)), [{ p with seq := p.seq + 1 }])
  | .upd (.error e) :: _, p =>
    if e.isVersionConflict then (none, [{ p with seq := p.seq + 1 }])
    else
      (some (some { p with seq := p.seq + 1 }, some (.wrap incMsg e)), [{ p with seq := p.seq + 1 }])
  | _, _ => (none, [])

/-- The mutation `IncrementSeqNum` is claimed to be a specialization of:
increment `Seq` by one, leave everything else untouched, never fail. -/
def incSeqFn (p : Pipeline) : Except Err Pipeline :=
  .ok { p with seq := p.seq + 1 }

/-- Go's `(*types.Pipeline, error)` view of an `UpdateOptLock` outcome:
`UpdateOptLock` returns `nil` for the pipeline whenever it errors. -/
def pairOfExcept : Except Err Pipeline → Option Pipeline × Option Err
  | .ok p => (some p, none)
  | .error e => (none, some e)

/-! ## internal/store/database/repo.go and the paths table -/

/-- Model of `enum.PathTargetType`: which entity kind a path row names. -/
inductive PathTargetType where
  | space
  | repo
deriving DecidableEq

/-- A row of the `paths` table / `types.Path`. -/
structure Path where
  id : Int
  targetType : PathTargetType
  targetID : Int
  isAlias : Bool
  value : String
  valueUnique : String
  createdBy : Int
  created : Int
  updated : Int
deriving DecidableEq

/-- A row of the `repositories` table / `types.Repository` (`path` is the
joined primary-path value, `repo_path`). -/
structure Repository where
  id : Int
  parentID : Int
  uid : String
  path : String
  description : String
  isPublic : Bool
  createdBy : Int
  created : Int
  updated : Int
  gitUID : String
  defaultBranch : String
  forkID : Int
  numForks : Int
  numPulls : Int
  numClosedPulls : Int
  numOpenPulls : Int
deriving DecidableEq

/-- The relational state the repo store operates on.  `nextRepoId` and
`nextPathId` model the RETURNING-id autoincrement columns. -/
structure Db where
  repos : List Repository
  paths : List Path
  nextRepoId : Int
  nextPathId : Int
deriving DecidableEq

/-- Model of `store.PathTransformation`: the injected normalization function
`func(string) (string, error)`. -/
def PathTransformation := String → Except Err String

/-- Modelled from the spec: `paths.Concatinate` is not under `src/`; §4.1
defines the new value as the parent's primary value concatenated with `/`
and the child segment. -/
def concatinate (parent uid : String) : String := parent ++ "/" ++ uid

/-- Modelled from the spec: `FindPathTx` is not under `src/`; per §4.1
`FindPrimary` returns the unique non-alias path row of
`(targetType, targetID)` and fails with `NotFound` if none exists. -/
def findPathTx (db : Db) (tt : PathTargetType) (tid : Int) : Except Err Path :=
  match db.paths.find? (fun p => p.targetType == tt && p.targetID == tid && !p.isAlias) with
  | some p => .ok p
  | none => .error .notFound

/-- Modelled from the spec: `CreatePathTx` is not under `src/`; per §4.1
`CreatePrimary` constructs the normalized form through the injected
transformation and inserts the row, failing with `DuplicatePath` when the
normalized value already exists.  (Structural validation of the value is the
caller's concern here: `RepoStore.Create` notes that all existing paths and
the repo uid are valid.) -/
def createPathTx (pt : PathTransformation) (db : Db) (p : Path) :
    Except Err (Db × Path) :=
  match pt p.value with
  | .error e => .error e
  | .ok u =>
    if db.paths.any (fun r => r.valueUnique == u) then .error .duplicatePath
    else
      let p' := { p with id := db.nextPathId, valueUnique := u }
      .ok ({ db with paths := p' :: db.paths, nextPathId := db.nextPathId + 1 }, p')

/-- The join of `repoSelectByID`: the repo row together with the value of its
primary path. -/
def repoSelectById (db : Db) (id : Int) : Except Err Repository :=
  match db.repos.find? (fun r => r.id == id) with
  | none => .error .notFound
  | some r =>
    match findPathTx db .repo id with
    | .error e => .error e
    | .ok p => .ok { r with path := p.value }

/-- Model of `RepoStore.FindByPath`: transforms the path through the injected
normalization function first (wrapping a transformation failure), then looks
the repo up by `path_valueUnique` over all of its path rows (alias or
primary), joined with its primary path (`repoSelectByPathUnique`). -/
def findByPath (pt : PathTransformation) (db : Db) (path : String) :
    Except Err Repository :=
  match pt path with
  | .error e => .error (.wrap ("failed to transform path " ++ path) e)
  | .ok u =>
    match db.paths.find? (fun p1 => p1.targetType == PathTargetType.repo && p1.valueUnique == u) with
    | none => .error .notFound
    | some p1 => repoSelectById db p1.targetID

/-- One base-10 digit, as `strconv` accepts it. -/
def digitToNat? (c : Char) : Option Nat :=
  if '0' ≤ c ∧ c ≤ '9' then some (c.toNat - '0'.toNat) else none

/-- Accumulate a base-10 digit string; any non-digit rejects. -/
def digitsToNatAux : Nat → List Char → Option Nat
  | acc, [] => some acc
  | acc, c :: cs =>
    match digitToNat? c with
    | none => none
    | some d => digitsToNatAux (acc * 10 + d) cs

/-- A non-empty all-digit string to its value; `none` otherwise. -/
def digitsToNat? : List Char → Option Nat
  | [] => none
  | cs => digitsToNatAux 0 cs

/-- Model of `strconv.ParseInt(s, 10, 64)`: an optional single leading sign, then one
or more ASCII digits, with the value required to fit a signed 64-bit
integer; `none` models a non-nil error (syntax or range). -/
def parseInt64 (s : String) : Option Int :=
  match s.data with
  | [] => none
  | c :: rest =>
    let signed : Bool × List Char :=
      if c = '-' then (true, rest)
      else if c = '+' then (false, rest)
      else (false, c :: rest)
    match digitsToNat? signed.2 with
    | none => none
    | some n =>
      if signed.1 then
        if n ≤ 2 ^ 63 then some (-(n : Int)) else none
      else
        if n < 2 ^ 63 then some (n : Int) else none

/-- Model of `RepoStore.FindRepoFromRef`: when the ref parses as an int64 the repo is
resolved by id (`Find`), otherwise by path (`FindByPath`). -/
def findRepoFromRef (pt : PathTransformation) (db : Db) (repoRef : String) :
    Except Err Repository :=
  match parseInt64 repoRef with
  | some id => repoSelectById db id
  | none => findByPath pt db repoRef

/-- Model of `RepoStore.Create`: inside one transaction, insert the repo row first to
obtain its id, read the parent space's primary path, build the new path value
from it and the repo uid, insert the non-alias primary path row, commit, and
write the path value back into the returned repo.  Any failure rolls the
transaction back, leaving the state untouched. -/
def repoCreate (pt : PathTransformation) (db : Db) (repo : Repository) :
    Db × Except Err Repository :=
  let id := db.nextRepoId
  let repo' := { repo with id := id }
  let db1 := { db with repos := repo' :: db.repos, nextRepoId := id + 1 }
  match findPathTx db1 .space repo.parentID with
  | .error e => (db, .error e)
  | .ok parentPath =>
    let pathValue := concatinate parentPath.value repo.uid
    let p : Path :=
      { id := 0, targetType := .repo, targetID := id, isAlias := false,
        value := pathValue, valueUnique := "", createdBy := repo.createdBy,
        created := repo.created, updated := repo.updated }
    match createPathTx pt db1 p with
    | .error e => (db, .error e)
    | .ok (db2, pFinal) => (db2, .ok { repo' with path := pFinal.value })

/-- Modelled from the spec: the cascade step of `ReplacePathTx` (§4.1 step 4)
is not under `src/`.  A row whose value starts with the old primary value
followed by `/` gets that prefix replaced by the new value and its normalized
form recomputed through the injected transformation. -/
def rewriteChild (pt : PathTransformation) (oldVal newVal : String) (row : Path) :
    Except Err Path :=
  if (oldVal ++ "/").isPrefixOf row.value then
    let v := newVal ++ row.value.drop (oldVal ++ "/").length
    match pt v with
    | .error e => .error e
    | .ok u => .ok { row with value := v, valueUnique := u }
  else .ok row

/-- Modelled from the spec: `ReplacePathTx` is not under `src/`; per §4.1
steps 3 and 4 it demotes the old primary to an alias (or deletes it), rewrites
every row carrying the old primary value as a path prefix, inserts the fresh
primary row, and fails with `DuplicatePath` when the new normalized value
collides. -/
def replacePathTx (pt : PathTransformation) (db : Db) (p : Path)
    (keepAsAlias : Bool) : Except Err Db :=
  match findPathTx db p.targetType p.targetID with
  | .error _ => .error .notFound
  | .ok oldPrimary =>
    match pt p.value with
    | .error e => .error e
    | .ok u =>
      let base :=
        if keepAsAlias then
          db.paths.map (fun r => if r.id == oldPrimary.id then { r with isAlias := true } else r)
        else
          db.paths.filter (fun r => r.id != oldPrimary.id)
      match base.mapM (rewriteChild pt oldPrimary.value p.value) with
      | .error e => .error e
      | .ok rewritten =>
        if rewritten.any (fun r => r.valueUnique == u) then .error .duplicatePath
        else
          let newPrimary := { p with id := db.nextPathId, valueUnique := u }
          .ok { db with paths := newPrimary :: rewritten, nextPathId := db.nextPathId + 1 }

/-- Model of `RepoStore.Move`: inside one transaction, read the repo's current primary
path and the new parent space's primary path, build the requested new value;
when it equals the current value fail with `ErrNoChangeInRequestedMove`
(nothing written, the transaction rolls back), otherwise replace the primary
path (cascading), rename the repo row (`repoUpdateUIDAndParentID`), and
re-select the repo.  Any failure rolls the transaction back. -/
def repoMove (pt : PathTransformation) (db : Db) (principalID repoID newParentID : Int)
    (newName : String) (keepAsAlias : Bool) (now : Int) :
    Db × Except Err Repository :=
  match findPathTx db .repo repoID with
  | .error e => (db, .error e)
  | .ok currentPath =>
    match findPathTx db .space newParentID with
    | .error e => (db, .error e)
    | .ok spacePath =>
      let newPath := concatinate spacePath.value newName
      if newPath = currentPath.value then (db, .error .noChangeInRequestedMove)
      else
        let p : Path :=
          { id := 0, targetType := .repo, targetID := repoID, isAlias := false,
            value := newPath, valueUnique := "", createdBy := principalID,
            created := now, updated := now }
        match replacePathTx pt db p keepAsAlias with
        | .error e => (db, .error e)
        | .ok db1 =>
          let db2 :=
            { db1 with
              repos := db1.repos.map (fun r =>
                if r.id == repoID then { r with uid := newName, parentID := newParentID } else r) }
          match repoSelectById db2 repoID with
          | .error e => (db, .error e)
          | .ok dst => (db2, .ok dst)

/-! ## Concurrency model for IncrementSeqNum

Two callers run `IncrementSeqNum` against the same one-row pipelines table.
An atomic step is one store call: the conditioned UPDATE (which the database
serializes) or the re-read `Find`.  The clock is fixed at `0` — timestamps
play no role in the sequence numbers. -/

/-- The local state of one `IncrementSeqNum` caller: at the loop top holding
a pipeline value, waiting to re-read after a version conflict, or done with
its return value. -/
inductive TState where
  | run (p : Pipeline)
  | reread
  | done (ret : Pipeline)
deriving DecidableEq

/-- One atomic step of a caller against the shared row: from the loop top it
increments `seq` and issues the conditioned update (success finishes the
caller, a conflict sends it to re-read); from `reread` it reads the current
row and loops; a finished caller does nothing. -/
def stepThread (db : Pipeline) : TState → Pipeline × TState
  | .run p =>
    let q := { p with seq := p.seq + 1 }
    let r := pipelineUpdate [db] 0 q
    match r.2 with
    | .ok ret => (r.1.headD db, .done ret)
    | .error _ => (db, .reread)
  | .reread => (db, .run db)
  | .done ret => (db, .done ret)

/-- A configuration: the stored row and the two callers. -/
structure Config where
  db : Pipeline
  t1 : TState
  t2 : TState
deriving DecidableEq

/-- Schedule one of the two callers for an atomic step. -/
def step (c : Config) (who : Bool) : Config :=
  if who then
    let r := stepThread c.db c.t1
    { c with db := r.1, t1 := r.2 }
  else
    let r := stepThread c.db c.t2
    { c with db := r.1, t2 := r.2 }

/-- Run a whole schedule, one chosen caller per step. -/
def run (c : Config) : List Bool → Config
  | [] => c
  | b :: bs => run (step c b) bs

/-- Whether a caller has returned. -/
def TState.isDone : TState → Bool
  | .done _ => true
  | _ => false

/-- The `seq` a finished caller returned (zero while still running). -/
def TState.retSeq : TState → Int
  | .done r => r.seq
  | _ => 0

/-- The stored pipeline of Scenario C: `seq = 5`, version 1. -/
def p5 : Pipeline :=
  { id := 1, description := "", spaceId := 0, uid := "", seq := 5, repoId := 0,
    repoType := "", repoName := "", defaultBranch := "", configPath := "",
    created := 0, updated := 0, version := 1 }

/-- The row after the first successful increment. -/
def p6 : Pipeline := { p5 with seq := 6, version := 2 }

/-- The row after the second successful increment. -/
def p7 : Pipeline := { p5 with seq := 7, version := 3 }

/-- Both callers start from the same read value `seq = 5`. -/
def initConfig : Config := { db := p5, t1 := .run p5, t2 := .run p5 }

/-- Every configuration reachable from `initConfig` under any interleaving. -/
def reachable : List Config :=
  [ { db := p5, t1 := .run p5, t2 := .run p5 },
    { db := p6, t1 := .done p6, t2 := .run p5 },
    { db := p6, t1 := .run p5, t2 := .done p6 },
    { db := p6, t1 := .done p6, t2 := .reread },
    { db := p6, t1 := .reread, t2 := .done p6 },
    { db := p6, t1 := .done p6, t2 := .run p6 },
    { db := p6, t1 := .run p6, t2 := .done p6 },
    { db := p7, t1 := .done p6, t2 := .done p7 },
    { db := p7, t1 := .done p7, t2 := .done p6 } ]

/-- A schedule suffix that drives any reachable configuration to completion:
three steps of each caller finish it from any of its states. -/
def finishSched : List Bool := [true, true, true, false, false, false]

/-- Model of `AllocateSequence` committed serially: `n` successful conditioned
updates, each incrementing `seq` by one from the latest stored row; returns
the final row and the values handed out, in commit order. -/
def serialCommits : Pipeline → Nat → Pipeline × List Int
  | row, 0 => (row, [])
  | row, Nat.succ n =>
    let q := { row with seq := row.seq + 1 }
    let r := pipelineUpdate [row] 0 q
    match r.2 with
    | .ok ret =>
      let rest := serialCommits (r.1.headD row) n
      (rest.1, ret.seq :: rest.2)
    | .error _ => (row, [])

/-! ## Concrete sample data used by witnesses and counterexamples -/

/-- The identity normalization function (always succeeds). -/
def idTransform : PathTransformation := fun s => .ok s

/-- A case-folding normalization function, the spec's running example. -/
def lowerTransform : PathTransformation := fun s => .ok (toLowerStr s)

/-- Primary path of the sample space `acme`. -/
def spacePathAcme : Path :=
  { id := 10, targetType := .space, targetID := 100, isAlias := false,
    value := "acme", valueUnique := "acme", createdBy := 0, created := 0, updated := 0 }

/-- Primary path of the sample repo `acme/repo1`. -/
def repoPathAcme : Path :=
  { id := 11, targetType := .repo, targetID := 1, isAlias := false,
    value := "acme/repo1", valueUnique := "acme/repo1", createdBy := 0, created := 0, updated := 0 }

/-- The sample repository row. -/
def repoAcme : Repository :=
  { id := 1, parentID := 100, uid := "repo1", path := "", description := "",
    isPublic := false, createdBy := 0, created := 0, updated := 0, gitUID := "",
    defaultBranch := "", forkID := 0, numForks := 0, numPulls := 0,
    numClosedPulls := 0, numOpenPulls := 0 }

/-- A small committed state: one space, one repo under it. -/
def sampleDb : Db :=
  { repos := [repoAcme], paths := [spacePathAcme, repoPathAcme],
    nextRepoId := 2, nextPathId := 12 }

/-- A string of 19 digits just past the signed 64-bit range (2^63). -/
def bigDigits : String := "9223372036854775808"

/-- An alias path row whose value consists only of digits, but too many of
them to parse as an int64. -/
def bigDigitsPath : Path :=
  { id := 13, targetType := .repo, targetID := 1, isAlias := true,
    value := bigDigits, valueUnique := bigDigits, createdBy := 0, created := 0, updated := 0 }

/-- The sample state extended with the all-digits alias path. -/
def bigDb : Db := { sampleDb with paths := bigDigitsPath :: sampleDb.paths }

/-! ## Theorems -/

/-- Step equation: a failing mutation aborts `UpdateOptLock` at once. -/
theorem uol_mutateErr (rs : List StoreResp) (p : Pipeline)
    (f : Pipeline → Except Err Pipeline) (e : Err) (h : f p = .error e) :
    updateOptLock f rs p = (some (.error e), []) := by
  rcases rs with _ | ⟨r, rest⟩
  · simp [updateOptLock, h]
  · rcases r with res | res
    · rcases res with e1 | now
      · rcases rest with _ | ⟨r2, rest2⟩
        · simp [updateOptLock, h]
        · rcases r2 with res2 | res2
          · simp [updateOptLock, h]
          · rcases res2 with e2 | found <;> simp [updateOptLock, h]
      · simp [updateOptLock, h]
    · simp [updateOptLock, h]

/-- Step equation: a successful conditioned update ends `UpdateOptLock`. -/
theorem uol_updOk (rs : List StoreResp) (p : Pipeline)
    (f : Pipeline → Except Err Pipeline) (dup : Pipeline) (now : Int)
    (h : f p = .ok dup) :
    updateOptLock f (.upd (.ok now) :: rs) p =
      (some (.ok { dup with version := dup.version + 1, updated := now }), [dup]) := by
  simp [updateOptLock, h]

/-- Step equation: a non-conflict update error aborts `UpdateOptLock`. -/
theorem uol_updErr (rs : List StoreResp) (p : Pipeline)
    (f : Pipeline → Except Err Pipeline) (dup : Pipeline) (e : Err)
    (h : f p = .ok dup) (hc : e.isVersionConflict = false) :
    updateOptLock f (.upd (.error e) :: rs) p = (some (.error e), [dup]) := by
  rcases rs with _ | ⟨r, rest⟩
  · simp [updateOptLock, h, hc]
  · rcases r with res | res
    · simp [updateOptLock, h, hc]
    · rcases res with e2 | found <;> simp [updateOptLock, h, hc]

/-- Step equation: a conflict followed by a successful re-read makes
`UpdateOptLock` retry from the freshly read value. -/
theorem uol_conflictFind (rs : List StoreResp) (p found : Pipeline)
    (f : Pipeline → Except Err Pipeline) (dup : Pipeline) (e : Err)
    (h : f p = .ok dup) (hc : e.isVersionConflict = true) :
    updateOptLock f (.upd (.error e) :: .find (.ok found) :: rs) p =
      ((updateOptLock f rs found).1, dup :: (updateOptLock f rs found).2) := by
  simp [updateOptLock, h, hc]

/-- Step equation: a conflict followed by a failing re-read aborts
`UpdateOptLock` with the re-read's error. -/
theorem uol_conflictFindErr (rs : List StoreResp) (p : Pipeline)
    (f : Pipeline → Except Err Pipeline) (dup : Pipeline) (e e2 : Err)
    (h : f p = .ok dup) (hc : e.isVersionConflict = true) :
    updateOptLock f (.upd (.error e) :: .find (.error e2) :: rs) p =
      (some (.error e2), [dup]) := by
  simp [updateOptLock, h, hc]

/-- Step equations of `IncrementSeqNum`: success. -/
theorem isn_updOk (rs : List StoreResp) (p : Pipeline) (now : Int) :
    incrementSeqNum (.upd (.ok now) :: rs) p =
      (some (some { p with seq := p.seq + 1, version := p.version + 1, updated := now }, none),
       [{ p with seq := p.seq + 1 }]) := by
  simp [incrementSeqNum]

/-- Step equations of `IncrementSeqNum`: non-conflict update error (any tail). -/
theorem isn_updErr (rs : List StoreResp) (p : Pipeline) (e : Err)
    (hc : e.isVersionConflict = false) :
    incrementSeqNum (.upd (.error e) :: rs) p =
      (some (some { p with seq := p.seq + 1 }, some (.wrap incMsg e)),
       [{ p with seq := p.seq + 1 }]) := by
  rcases rs with _ | ⟨r, rest⟩
  · simp [incrementSeqNum, hc]
  · rcases r with res | res
    · simp [incrementSeqNum, hc]
    · rcases res with e2 | found <;> simp [incrementSeqNum, hc]

/-- Step equations of `IncrementSeqNum`: conflict then successful re-read. -/
theorem isn_conflictFind (rs : List StoreResp) (p found : Pipeline) (e : Err)
    (hc : e.isVersionConflict = true) :
    incrementSeqNum (.upd (.error e) :: .find (.ok found) :: rs) p =
      ((incrementSeqNum rs found).1,
       { p with seq := p.seq + 1 } :: (incrementSeqNum rs found).2) := by
  simp [incrementSeqNum, hc]

/-- Step equations of `IncrementSeqNum`: conflict then failing re-read. -/
theorem isn_conflictFindErr (rs : List StoreResp) (p : Pipeline) (e e2 : Err)
    (hc : e.isVersionConflict = true) :
    incrementSeqNum (.upd (.error e) :: .find (.error e2) :: rs) p =
      (some (none, some (.wrap incMsg e2)), [{ p with seq := p.seq + 1 }]) := by
  simp [incrementSeqNum, hc]

/-- C9: `ParseOrder(e.String())` equals `e` for `e ∈ {OrderAsc, OrderDesc}`,
`ParseOrder` is case-insensitive in its input, and since
`OrderDefault.String()` is `"asc"`, `ParseOrder(OrderDefault.String())` is
`OrderAsc`, not `OrderDefault`: the round trip holds exactly on
`{OrderAsc, OrderDesc}`. -/
theorem parseOrder_string_roundtrip :
    parseOrder (Order.orderAsc.string) = Order.orderAsc
    ∧ parseOrder (Order.orderDesc.string) = Order.orderDesc
    ∧ (∀ s t : String, toLowerStr s = toLowerStr t → parseOrder s = parseOrder t)
    ∧ Order.orderDefault.string = "asc"
    ∧ parseOrder (Order.orderDefault.string) = Order.orderAsc
    ∧ Order.orderAsc ≠ Order.orderDefault := by
  refine ⟨by decide, by decide, ?_, by decide, by decide, by decide⟩
  intro s t h
  unfold parseOrder
  rw [h]

/-- Witness for C9: case-insensitivity applied at `"ASC"` and `"asc"`. -/
theorem parseOrder_string_roundtrip_witness :
    toLowerStr "ASC" = toLowerStr "asc" ∧ parseOrder "ASC" = parseOrder "asc" :=
  ⟨by decide, parseOrder_string_roundtrip.2.2.1 "ASC" "asc" (by decide)⟩

/-- C10: for a non-empty repo path and a successful `rev-list` invocation,
`HasBranches` returns true precisely when the command's standard output is
empty after whitespace trimming — i.e. exactly when no commit is reachable
from any branch, the opposite of its doc comment ("true iff there's at least
one branch").  Concretely, a repository with one branch makes `rev-list`
print that commit, and `HasBranches` returns `false`. -/
theorem hasBranches_inverted :
    (∀ stdout : String, hasBranches "repo" (.ok stdout) = .ok (trimSpace stdout == ""))
    ∧ hasBranches "repo" (.ok "788a2f1d2e7ff4f4d0d80ea6ba0d4a30b5c8297c\n") = .ok false
    ∧ hasBranches "repo" (.ok "") = .ok true := by
  refine ⟨fun stdout => ?_, by decide, by decide⟩
  unfold hasBranches
  rw [if_neg (by decide)]

/-- C1: `pipelineStore.Update` fails with `ErrVersionConflict` exactly when
no stored row has the entity's id and its pre-increment version (the
conditioned write matched zero rows); on success the struct written back to
the caller carries version `p.version + 1` and the stored matching rows now
hold `p`'s columns with version `p.version + 1` and the fresh timestamp. -/
theorem pipelineUpdate_version_conditioned (db : List Pipeline) (now : Int) (p : Pipeline) :
    ((pipelineUpdate db now p).2 = .error .versionConflict ↔
      ∀ row ∈ db, ¬(row.id = p.id ∧ row.version = p.version))
    ∧ (∀ p', (pipelineUpdate db now p).2 = .ok p' →
        p' = { p with version := p.version + 1, updated := now }
        ∧ p'.version = p.version + 1)
    ∧ (pipelineUpdate db now p).1 = db.map (fun row =>
        if row.id = p.id ∧ row.version = p.version then
          { row with description := p.description, uid := p.uid, seq := p.seq,
                     defaultBranch := p.defaultBranch, configPath := p.configPath,
                     updated := now, version := p.version + 1 }
        else row) := by
  have hmatch : ∀ row : Pipeline,
      pipelineUpdateMatches { p with version := p.version + 1, updated := now } row = true ↔
        (row.id = p.id ∧ row.version = p.version) := by
    intro row
    simp only [pipelineUpdateMatches, Bool.and_eq_true, beq_iff_eq]
    omega
  by_cases h : (db.filter (pipelineUpdateMatches { p with version := p.version + 1, updated := now })).length = 0
  · have hempty : ∀ row ∈ db, ¬(row.id = p.id ∧ row.version = p.version) := by
      intro row hrow
      rw [← hmatch row]
      have := List.filter_eq_nil_iff.mp (List.length_eq_zero.mp h) row hrow
      simp_all
    have hval : pipelineUpdate db now p = (db, .error .versionConflict) := by
      unfold pipelineUpdate
      rw [if_pos h]
    refine ⟨?_, ?_, ?_⟩
    · rw [hval]
      exact ⟨fun _ => hempty, fun _ => rfl⟩
    · intro p' hp'
      rw [hval] at hp'
      cases hp'
    · rw [hval]
      show db = _
      nth_rewrite 1 [show db = db.map id from (List.map_id db).symm]
      refine List.map_congr_left ?_
      intro row hrow
      rw [if_neg (hempty row hrow)]
      rfl
  · have hval : pipelineUpdate db now p =
        (db.map (fun row =>
           if pipelineUpdateMatches { p with version := p.version + 1, updated := now } row then
             applyPipelineUpdateRow { p with version := p.version + 1, updated := now } row
           else row),
         .ok { p with updated := now, version := p.version + 1 }) := by
      unfold pipelineUpdate
      rw [if_neg h]
    refine ⟨?_, ?_, ?_⟩
    · rw [hval]
      constructor
      · intro hcontra
        cases hcontra
      · intro hall
        exfalso
        apply h
        rw [List.length_eq_zero, List.filter_eq_nil_iff]
        intro row hrow hb
        exact hall row hrow ((hmatch row).mp hb)
    · intro p' hp'
      rw [hval] at hp'
      cases hp'
      exact ⟨rfl, rfl⟩
    · rw [hval]
      show List.map _ db = _
      refine List.map_congr_left ?_
      intro row hrow
      by_cases hm : row.id = p.id ∧ row.version = p.version
      · rw [if_pos ((hmatch row).mpr hm), if_pos hm]
        rfl
      · rw [if_neg (fun hb => hm ((hmatch row).mp hb)), if_neg hm]

/-- Witness for C1: updating the sample pipeline (version 1) against a store
holding exactly that version succeeds and hands back version 2. -/
theorem pipelineUpdate_version_conditioned_witness :
    (pipelineUpdate [p5] 42 p5).2 = .ok { p5 with version := p5.version + 1, updated := 42 }
    ∧ ({ p5 with version := p5.version + 1, updated := 42 } =
        { p5 with version := p5.version + 1, updated := 42 }
       ∧ (Pipeline.version { p5 with version := p5.version + 1, updated := 42 }) = p5.version + 1) :=
  ⟨by decide,
   (pipelineUpdate_version_conditioned [p5] 42 p5).2.1
     { p5 with version := p5.version + 1, updated := 42 } (by decide)⟩

/-- C2: `UpdateOptLock` applies the mutation to a private copy; a mutation
error is returned at once with no write attempt and no retry; a successful
conditioned update returns the mutated copy carrying the persisted version
and timestamp; a non-conflict update error is returned at once; only a
version conflict retries, and the retry re-reads the entity fresh and
restarts from the re-read value; a failing re-read aborts with its error. -/
theorem updateOptLock_retry_policy :
    (∀ (rs : List StoreResp) (p : Pipeline) (f : Pipeline → Except Err Pipeline) (e : Err),
        f p = .error e → updateOptLock f rs p = (some (.error e), []))
    ∧ (∀ (rs : List StoreResp) (p : Pipeline) (f : Pipeline → Except Err Pipeline)
        (dup : Pipeline) (now : Int), f p = .ok dup →
        updateOptLock f (.upd (.ok now) :: rs) p =
          (some (.ok { dup with version := dup.version + 1, updated := now }), [dup]))
    ∧ (∀ (rs : List StoreResp) (p : Pipeline) (f : Pipeline → Except Err Pipeline)
        (dup : Pipeline) (e : Err), f p = .ok dup → e.isVersionConflict = false →
        updateOptLock f (.upd (.error e) :: rs) p = (some (.error e), [dup]))
    ∧ (∀ (rs : List StoreResp) (p found : Pipeline) (f : Pipeline → Except Err Pipeline)
        (dup : Pipeline) (e : Err), f p = .ok dup → e.isVersionConflict = true →
        updateOptLock f (.upd (.error e) :: .find (.ok found) :: rs) p =
          ((updateOptLock f rs found).1, dup :: (updateOptLock f rs found).2))
    ∧ (∀ (rs : List StoreResp) (p : Pipeline) (f : Pipeline → Except Err Pipeline)
        (dup : Pipeline) (e e2 : Err), f p = .ok dup → e.isVersionConflict = true →
        updateOptLock f (.upd (.error e) :: .find (.error e2) :: rs) p =
          (some (.error e2), [dup])) :=
  ⟨fun rs p f e h => uol_mutateErr rs p f e h,
   fun rs p f dup now h => uol_updOk rs p f dup now h,
   fun rs p f dup e h hc => uol_updErr rs p f dup e h hc,
   fun rs p found f dup e h hc => uol_conflictFind rs p found f dup e h hc,
   fun rs p f dup e e2 h hc => uol_conflictFindErr rs p f dup e e2 h hc⟩

/-- Witness for C2: a non-conflict storage error surfaces unchanged, with
exactly one write attempted. -/
theorem updateOptLock_retry_policy_witness :
    incSeqFn p5 = .ok { p5 with seq := p5.seq + 1 }
    ∧ Err.isVersionConflict (.other 3) = false
    ∧ updateOptLock incSeqFn [.upd (.error (.other 3))] p5 =
        (some (.error (.other 3)), [{ p5 with seq := p5.seq + 1 }]) :=
  ⟨rfl, rfl,
   updateOptLock_retry_policy.2.2.1 [] p5 incSeqFn
     { p5 with seq := p5.seq + 1 } (.other 3) rfl rfl⟩

/-- Counterexample for C3: on a non-conflict update error the two functions
do not produce the same returned pipeline and error — `IncrementSeqNum`
returns the seq-incremented struct together with a wrapped error, while
`UpdateOptLock` returns nil and the unwrapped error. -/
theorem incrementSeqNum_not_identical_cex :
    ¬ ((incrementSeqNum [.upd (.error (.other 7))] p5).1 =
          Option.map pairOfExcept (updateOptLock incSeqFn [.upd (.error (.other 7))] p5).1
       ∧ (incrementSeqNum [.upd (.error (.other 7))] p5).2 =
          (updateOptLock incSeqFn [.upd (.error (.other 7))] p5).2) := by
  decide

/-- Inductive core of the C3 comparison, with the response stream bounded by
a fuel parameter for the induction. -/
theorem incSeq_refines_aux :
    ∀ (n : Nat) (rs : List StoreResp) (p : Pipeline), rs.length ≤ n →
    (incrementSeqNum rs p).2 = (updateOptLock incSeqFn rs p).2
    ∧ ((incrementSeqNum rs p).1 = none ↔ (updateOptLock incSeqFn rs p).1 = none)
    ∧ (∀ q, (updateOptLock incSeqFn rs p).1 = some (.ok q) ↔
        (incrementSeqNum rs p).1 = some (some q, none))
    ∧ (∀ e, (updateOptLock incSeqFn rs p).1 = some (.error e) →
        ∃ op, (incrementSeqNum rs p).1 = some (op, some (.wrap incMsg e))) := by
  intro n
  induction n with
  | zero =>
    intro rs p hlen
    have hz : rs = [] := List.length_eq_zero.mp (Nat.le_zero.mp hlen)
    subst hz
    exact ⟨rfl, by simp [incrementSeqNum, updateOptLock, incSeqFn],
      fun q => by simp [incrementSeqNum, updateOptLock, incSeqFn],
      fun e he => by simp [updateOptLock, incSeqFn] at he⟩
  | succ n ih =>
    intro rs p hlen
    rcases rs with _ | ⟨r, rest⟩
    · exact ⟨rfl, by simp [incrementSeqNum, updateOptLock, incSeqFn],
        fun q => by simp [incrementSeqNum, updateOptLock, incSeqFn],
        fun e he => by simp [updateOptLock, incSeqFn] at he⟩
    · rcases r with res | res
      · rcases res with e | now
        · by_cases hc : e.isVersionConflict
          · rcases rest with _ | ⟨r2, rest2⟩
            · refine ⟨by simp [incrementSeqNum, updateOptLock, incSeqFn, hc], ?_, ?_, ?_⟩
              · simp [incrementSeqNum, updateOptLock, incSeqFn, hc]
              · intro q; simp [incrementSeqNum, updateOptLock, incSeqFn, hc]
              · intro e' he'; simp [updateOptLock, incSeqFn, hc] at he'
            · rcases r2 with res2 | res2
              · refine ⟨by simp [incrementSeqNum, updateOptLock, incSeqFn, hc], ?_, ?_, ?_⟩
                · simp [incrementSeqNum, updateOptLock, incSeqFn, hc]
                · intro q; simp [incrementSeqNum, updateOptLock, incSeqFn, hc]
                · intro e' he'; simp [updateOptLock, incSeqFn, hc] at he'
              · rcases res2 with e2 | found
                · rw [isn_conflictFindErr rest2 p e e2 hc,
                      uol_conflictFindErr rest2 p incSeqFn { p with seq := p.seq + 1 } e e2 rfl hc]
                  refine ⟨rfl, by simp, fun q => by simp, ?_⟩
                  intro e' he'
                  simp only [Option.some.injEq, Except.error.injEq] at he'
                  subst he'
                  exact ⟨none, rfl⟩
                · rw [isn_conflictFind rest2 p found e hc,
                      uol_conflictFind rest2 p found incSeqFn { p with seq := p.seq + 1 } e rfl hc]
                  have hlen2 : rest2.length ≤ n := by
                    simp only [List.length_cons] at hlen
                    omega
                  obtain ⟨ih1, ih2, ih3, ih4⟩ := ih rest2 found hlen2
                  exact ⟨by rw [ih1], ih2, ih3, ih4⟩
          · rw [isn_updErr rest p e (Bool.not_eq_true _ ▸ hc),
                uol_updErr rest p incSeqFn { p with seq := p.seq + 1 } e rfl (Bool.not_eq_true _ ▸ hc)]
            refine ⟨rfl, by simp, fun q => by simp, ?_⟩
            intro e' he'
            simp only [Option.some.injEq, Except.error.injEq] at he'
            subst he'
            exact ⟨some { p with seq := p.seq + 1 }, rfl⟩
        · rw [isn_updOk rest p now, uol_updOk rest p incSeqFn { p with seq := p.seq + 1 } now rfl]
          refine ⟨rfl, by simp, fun q => by simp, ?_⟩
          intro e' he'
          simp at he'
      · exact ⟨rfl, by simp [incrementSeqNum, updateOptLock, incSeqFn],
          fun q => by simp [incrementSeqNum, updateOptLock, incSeqFn],
          fun e he => by simp [updateOptLock, incSeqFn] at he⟩

/-- C3 amended: against every response stream, `IncrementSeqNum` and
`UpdateOptLock` with the increment-seq-by-one mutation attempt exactly the
same sequence of writes, and agree on termination and on every successful
outcome; when `UpdateOptLock` returns an error `e`, `IncrementSeqNum`
instead returns `e` wrapped in "could not increment pipeline sequence
number" (and, for a non-conflict update error, the seq-incremented pipeline
rather than nil). -/
theorem incrementSeqNum_refines_updateOptLock (rs : List StoreResp) (p : Pipeline) :
    (incrementSeqNum rs p).2 = (updateOptLock incSeqFn rs p).2
    ∧ ((incrementSeqNum rs p).1 = none ↔ (updateOptLock incSeqFn rs p).1 = none)
    ∧ (∀ q, (updateOptLock incSeqFn rs p).1 = some (.ok q) ↔
        (incrementSeqNum rs p).1 = some (some q, none))
    ∧ (∀ e, (updateOptLock incSeqFn rs p).1 = some (.error e) →
        ∃ op, (incrementSeqNum rs p).1 = some (op, some (.wrap incMsg e))) :=
  incSeq_refines_aux rs.length rs p (Nat.le_refl _)

/-- Witness for C3's amended theorem: at a concrete non-conflict storage
error, `UpdateOptLock` errors and `IncrementSeqNum` returns the same error
wrapped. -/
theorem incrementSeqNum_refines_updateOptLock_witness :
    (updateOptLock incSeqFn [.upd (.error (.other 7))] p5).1 = some (.error (.other 7))
    ∧ ∃ op, (incrementSeqNum [.upd (.error (.other 7))] p5).1 =
        some (op, some (.wrap incMsg (.other 7))) :=
  ⟨by decide,
   (incrementSeqNum_refines_updateOptLock [.upd (.error (.other 7))] p5).2.2.2
     (.other 7) (by decide)⟩

/-- C4: a move request whose new path — the new parent space's primary path
value concatenated with `/` and the new name — equals the repo's current
primary path value fails with `ErrNoChangeInRequestedMove` and leaves the
stored state completely unchanged. -/
theorem repoMove_noChange_rejected (pt : PathTransformation) (db : Db)
    (principalID repoID newParentID : Int) (newName : String) (keepAsAlias : Bool)
    (now : Int) (cur sp : Path)
    (h1 : findPathTx db .repo repoID = .ok cur)
    (h2 : findPathTx db .space newParentID = .ok sp)
    (h3 : concatinate sp.value newName = cur.value) :
    repoMove pt db principalID repoID newParentID newName keepAsAlias now =
      (db, .error .noChangeInRequestedMove) := by
  rw [repoMove, h1, h2]
  simp [h3]

/-- Witness for C4: moving the sample repo to its current parent and name is
rejected and the state is untouched. -/
theorem repoMove_noChange_rejected_witness :
    findPathTx sampleDb .repo 1 = .ok repoPathAcme
    ∧ findPathTx sampleDb .space 100 = .ok spacePathAcme
    ∧ concatinate spacePathAcme.value "repo1" = repoPathAcme.value
    ∧ repoMove idTransform sampleDb 9 1 100 "repo1" true 0 =
        (sampleDb, .error .noChangeInRequestedMove) :=
  ⟨by decide, by decide, by decide,
   repoMove_noChange_rejected idTransform sampleDb 9 1 100 "repo1" true 0
     repoPathAcme spacePathAcme (by decide) (by decide) (by decide)⟩

/-- C5: `RepoStore.Create` behaves transactionally — on any failure the state
is unchanged — and on success it has inserted exactly the repo row (under
the freshly assigned id) and exactly one non-alias path row whose value is
the parent space's primary path value concatenated with `/` and the repo's
UID, with the returned repo's `Path` field equal to that value. -/
theorem repoCreate_atomic_primary_path (pt : PathTransformation) (db : Db)
    (repo : Repository) :
    (∀ e, (repoCreate pt db repo).2 = .error e → (repoCreate pt db repo).1 = db)
    ∧ (∀ r, (repoCreate pt db repo).2 = .ok r →
        ∃ parent u,
          findPathTx db .space repo.parentID = .ok parent
          ∧ pt (concatinate parent.value repo.uid) = .ok u
          ∧ r.id = db.nextRepoId
          ∧ r.path = concatinate parent.value repo.uid
          ∧ (repoCreate pt db repo).1.repos = { repo with id := db.nextRepoId } :: db.repos
          ∧ (repoCreate pt db repo).1.paths =
              { id := db.nextPathId, targetType := .repo, targetID := r.id,
                isAlias := false, value := concatinate parent.value repo.uid,
                valueUnique := u, createdBy := repo.createdBy,
                created := repo.created, updated := repo.updated } :: db.paths) := by
  constructor
  · intro e he
    simp only [repoCreate] at he ⊢
    split at he
    · rfl
    · split at he
      · rfl
      · exact Except.noConfusion he
  · intro r hr
    simp only [repoCreate] at hr ⊢
    split at hr
    · exact Except.noConfusion hr
    · rename_i parent hf
      split at hr
      · exact Except.noConfusion hr
      · rename_i db2 pFinal hc
        simp only [Except.ok.injEq] at hr
        unfold createPathTx at hc
        split at hc
        · exact Except.noConfusion hc
        · rename_i u hu
          split at hc
          · exact Except.noConfusion hc
          · rename_i hdup
            simp only [Except.ok.injEq, Prod.mk.injEq] at hc
            obtain ⟨hdb2, hpf⟩ := hc
            subst hdb2
            subst hpf
            subst hr
            exact ⟨parent, u, hf, hu, rfl, rfl, rfl, rfl⟩

/-- Witness for C5: creating a repo `repo9` under the sample space `acme`
succeeds and mints the primary path `acme/repo9`. -/
theorem repoCreate_atomic_primary_path_witness :
    (repoCreate idTransform sampleDb { repoAcme with id := 0, uid := "repo9" }).2 =
      .ok { repoAcme with id := 2, uid := "repo9", path := "acme/repo9" }
    ∧ ∃ parent u,
        findPathTx sampleDb .space ({ repoAcme with id := 0, uid := "repo9" } : Repository).parentID =
          .ok parent
        ∧ idTransform (concatinate parent.value "repo9") = .ok u
        ∧ ({ repoAcme with id := 2, uid := "repo9", path := "acme/repo9" } : Repository).id =
            sampleDb.nextRepoId
        ∧ ({ repoAcme with id := 2, uid := "repo9", path := "acme/repo9" } : Repository).path =
            concatinate parent.value "repo9"
        ∧ (repoCreate idTransform sampleDb { repoAcme with id := 0, uid := "repo9" }).1.repos =
            { repoAcme with id := sampleDb.nextRepoId, uid := "repo9" } :: sampleDb.repos
        ∧ (repoCreate idTransform sampleDb { repoAcme with id := 0, uid := "repo9" }).1.paths =
            { id := sampleDb.nextPathId, targetType := .repo,
              targetID := ({ repoAcme with id := 2, uid := "repo9", path := "acme/repo9" } : Repository).id,
              isAlias := false, value := concatinate parent.value "repo9",
              valueUnique := u, createdBy := repoAcme.createdBy,
              created := repoAcme.created, updated := repoAcme.updated } :: sampleDb.paths :=
  ⟨by decide,
   (repoCreate_atomic_primary_path idTransform sampleDb
       { repoAcme with id := 0, uid := "repo9" }).2
     { repoAcme with id := 2, uid := "repo9", path := "acme/repo9" } (by decide)⟩

/-- C6: `FindByPath` normalizes the input through the injected transformation
before looking up by `valueUnique`: two inputs with the same normalized form
resolve identically, and a failing transformation yields the wrapped
transformation error without consulting the stored state at all (the result
is the same for every state). -/
theorem findByPath_normalizes_first :
    (∀ (pt : PathTransformation) (db : Db) (a b u : String),
        pt a = .ok u → pt b = .ok u → findByPath pt db a = findByPath pt db b)
    ∧ (∀ (pt : PathTransformation) (db db' : Db) (path : String) (e : Err),
        pt path = .error e →
        findByPath pt db path = .error (.wrap ("failed to transform path " ++ path) e)
        ∧ findByPath pt db path = findByPath pt db' path) := by
  constructor
  · intro pt db a b u ha hb
    rw [findByPath, findByPath, ha, hb]
  · intro pt db db' path e he
    rw [findByPath, findByPath, he]
    exact ⟨rfl, rfl⟩

/-- Witness for C6: under case-folding normalization, `Acme/REPO1` and
`acme/repo1` resolve to the same repository. -/
theorem findByPath_normalizes_first_witness :
    lowerTransform "Acme/REPO1" = .ok "acme/repo1"
    ∧ lowerTransform "acme/repo1" = .ok "acme/repo1"
    ∧ findByPath lowerTransform sampleDb "Acme/REPO1" =
        findByPath lowerTransform sampleDb "acme/repo1" :=
  ⟨by decide, by decide,
   findByPath_normalizes_first.1 lowerTransform sampleDb "Acme/REPO1" "acme/repo1"
     "acme/repo1" (by decide) (by decide)⟩

/-- A non-empty all-digit string whose value fits int64 parses to that
value (`strconv.ParseInt` succeeds on it). -/
theorem parseInt64_digits (s : String) (n : Nat)
    (h : digitsToNat? s.data = some n) (hlt : n < 2 ^ 63) :
    parseInt64 s = some (n : Int) := by
  rcases hs : s.data with _ | ⟨c, rest⟩
  · rw [hs] at h
    cases h
  · rw [hs] at h
    have hdig : '0' ≤ c ∧ c ≤ '9' := by
      by_contra hcon
      simp [digitsToNat?, digitsToNatAux, digitToNat?, hcon] at h
    have hc1 : c ≠ '-' := by
      intro hceq
      rw [hceq] at hdig
      exact absurd hdig.1 (by decide)
    have hc2 : c ≠ '+' := by
      intro hceq
      rw [hceq] at hdig
      exact absurd hdig.1 (by decide)
    unfold parseInt64
    rw [hs]
    simp [hc1, hc2, h, hlt]
    simpa using hlt

/-- C8 amended: a ref that parses as a base-10 signed 64-bit integer is
resolved by that numeric id and never by path; a ref that does not parse is
resolved by path; consequently a repository whose path consists only of
digits denoting a value inside the int64 range can never be reached by its
path — while an all-digit path whose value exceeds the range still falls
through to the path lookup. -/
theorem findRepoFromRef_ref_resolution :
    (∀ (pt : PathTransformation) (db : Db) (ref : String) (id : Int),
        parseInt64 ref = some id → findRepoFromRef pt db ref = repoSelectById db id)
    ∧ (∀ (pt : PathTransformation) (db : Db) (ref : String),
        parseInt64 ref = none → findRepoFromRef pt db ref = findByPath pt db ref)
    ∧ (∀ (pt : PathTransformation) (db : Db) (ref : String) (n : Nat),
        digitsToNat? ref.data = some n → n < 2 ^ 63 →
        findRepoFromRef pt db ref = repoSelectById db (n : Int)) := by
  refine ⟨?_, ?_, ?_⟩
  · intro pt db ref id h
    rw [findRepoFromRef, h]
  · intro pt db ref h
    rw [findRepoFromRef, h]
  · intro pt db ref n h hlt
    rw [findRepoFromRef, parseInt64_digits ref n h hlt]

/-- Counterexample for C8's final consequence: `"9223372036854775808"`
(2^63, out of int64 range) consists only of digits, yet `FindRepoFromRef`
falls through to the path lookup and finds the repository having exactly
that path. -/
theorem findRepoFromRef_digitsOnly_cex :
    bigDigits.data.all Char.isDigit = true
    ∧ parseInt64 bigDigits = none
    ∧ findRepoFromRef idTransform bigDb bigDigits = findByPath idTransform bigDb bigDigits
    ∧ findRepoFromRef idTransform bigDb bigDigits = .ok { repoAcme with path := "acme/repo1" } := by
  refine ⟨by decide, by decide, by decide, by decide⟩

/-- Witness for C8's amended theorem: `"42"` resolves by id 42. -/
theorem findRepoFromRef_ref_resolution_witness :
    parseInt64 "42" = some 42
    ∧ findRepoFromRef idTransform sampleDb "42" = repoSelectById sampleDb 42 :=
  ⟨by decide, findRepoFromRef_ref_resolution.1 idTransform sampleDb "42" 42 (by decide)⟩

/-- Concatenation of schedules runs sequentially. -/
theorem run_append (c : Config) (l1 l2 : List Bool) :
    run c (l1 ++ l2) = run (run c l1) l2 := by
  induction l1 generalizing c with
  | nil => rfl
  | cons b bs ih => simp [run, ih]

/-- The enumerated configuration set is closed under steps of either caller. -/
theorem reachable_closed : ∀ c ∈ reachable, ∀ b : Bool, step c b ∈ reachable := by
  decide

/-- Any schedule keeps the system inside the enumerated set. -/
theorem run_mem : ∀ (sched : List Bool) (c : Config), c ∈ reachable →
    run c sched ∈ reachable := by
  intro sched
  induction sched with
  | nil => intro c hc; exact hc
  | cons b bs ih => intro c hc; exact ih (step c b) (reachable_closed c hc b)

/-- Three further steps of each caller finish the protocol from any
reachable configuration. -/
theorem reachable_finish : ∀ c ∈ reachable,
    (run c finishSched).t1.isDone = true ∧ (run c finishSched).t2.isDone = true := by
  decide

/-- Once both callers are done, the stored row holds `seq = 7` and the two
returned values are 6 and 7 in some order. -/
theorem reachable_correct : ∀ c ∈ reachable,
    c.t1.isDone = true → c.t2.isDone = true →
    c.db.seq = 7 ∧ (c.t1.retSeq = 6 ∧ c.t2.retSeq = 7 ∨ c.t1.retSeq = 7 ∧ c.t2.retSeq = 6) := by
  decide

/-- Unfolding one serial commit: it always matches the stored version and
hands out `seq + 1`. -/
theorem serialCommits_succ (row : Pipeline) (n : Nat) :
    serialCommits row (n + 1) =
      ((serialCommits { row with seq := row.seq + 1, updated := 0, version := row.version + 1 } n).1,
       (row.seq + 1) ::
         (serialCommits { row with seq := row.seq + 1, updated := 0, version := row.version + 1 } n).2) := by
  simp [serialCommits, pipelineUpdate, pipelineUpdateMatches, applyPipelineUpdateRow,
    Int.add_sub_cancel]

/-- Every value handed out by a run of serial commits exceeds the starting
sequence number. -/
theorem serialCommits_lb : ∀ (n : Nat) (row : Pipeline) (x : Int),
    x ∈ (serialCommits row n).2 → row.seq < x := by
  intro n
  induction n with
  | zero =>
    intro row x hx
    simp [serialCommits] at hx
  | succ n ih =>
    intro row x hx
    rw [serialCommits_succ] at hx
    rcases List.mem_cons.mp hx with h | h
    · omega
    · have hlt := ih _ _ h
      have hseq : Pipeline.seq { row with seq := row.seq + 1, updated := 0, version := row.version + 1 } = row.seq + 1 := rfl
      rw [hseq] at hlt
      omega

/-- Serial commits hand out strictly increasing sequence values. -/
theorem serialCommits_pairwise : ∀ (n : Nat) (row : Pipeline),
    List.Pairwise (fun a b => a < b) (serialCommits row n).2 := by
  intro n
  induction n with
  | zero =>
    intro row
    simp [serialCommits]
  | succ n ih =>
    intro row
    rw [serialCommits_succ]
    refine List.pairwise_cons.mpr ⟨?_, ih _⟩
    intro x hx
    have hlt := serialCommits_lb n _ x hx
    have hseq : Pipeline.seq { row with seq := row.seq + 1, updated := 0, version := row.version + 1 } = row.seq + 1 := rfl
    rw [hseq] at hlt
    omega

/-- C7: two concurrent `IncrementSeqNum` callers starting from `seq = 5`,
interleaved at the granularity of single store operations in any order, both
eventually succeed (any schedule extended by three steps of each caller is
done), the final stored `seq` is 7, and the callers receive 6 and 7 in some
order — never both 6; in general, serially committed `AllocateSequence`
results are pairwise distinct and strictly increasing in commit order. -/
theorem incrementSeqNum_concurrent_scenario :
    (∀ sched : List Bool,
        (run initConfig (sched ++ finishSched)).t1.isDone = true
        ∧ (run initConfig (sched ++ finishSched)).t2.isDone = true)
    ∧ (∀ (sched : List Bool) (r1 r2 : Pipeline),
        (run initConfig sched).t1 = .done r1 → (run initConfig sched).t2 = .done r2 →
        (run initConfig sched).db.seq = 7
        ∧ (r1.seq = 6 ∧ r2.seq = 7 ∨ r1.seq = 7 ∧ r2.seq = 6)
        ∧ r1.seq ≠ r2.seq)
    ∧ (∀ (row : Pipeline) (n : Nat),
        List.Pairwise (fun a b => a < b) (serialCommits row n).2) := by
  have hinit : initConfig ∈ reachable := by decide
  refine ⟨?_, ?_, fun row n => serialCommits_pairwise n row⟩
  · intro sched
    rw [run_append]
    exact reachable_finish _ (run_mem sched initConfig hinit)
  · intro sched r1 r2 h1 h2
    have hmem := run_mem sched initConfig hinit
    have hdone1 : (run initConfig sched).t1.isDone = true := by rw [h1]; rfl
    have hdone2 : (run initConfig sched).t2.isDone = true := by rw [h2]; rfl
    obtain ⟨hseq, hcases⟩ := reachable_correct _ hmem hdone1 hdone2
    have hr1 : (run initConfig sched).t1.retSeq = r1.seq := by rw [h1]; rfl
    have hr2 : (run initConfig sched).t2.retSeq = r2.seq := by rw [h2]; rfl
    rw [hr1, hr2] at hcases
    refine ⟨hseq, hcases, ?_⟩
    rcases hcases with ⟨ha, hb⟩ | ⟨ha, hb⟩ <;> omega

/-- Witness for C7: the schedule where caller one commits first, then caller
two conflicts, re-reads and commits, ends with `seq = 7` stored and the
callers holding 6 and 7. -/
theorem incrementSeqNum_concurrent_scenario_witness :
    ((run initConfig [true, false, false, false]).t1 = .done p6
     ∧ (run initConfig [true, false, false, false]).t2 = .done p7)
    ∧ ((run initConfig [true, false, false, false]).db.seq = 7
       ∧ (p6.seq = 6 ∧ p7.seq = 7 ∨ p6.seq = 7 ∧ p7.seq = 6)
       ∧ p6.seq ≠ p7.seq) :=
  ⟨⟨by decide, by decide⟩,
   incrementSeqNum_concurrent_scenario.2.1 [true, false, false, false] p6 p7
     (by decide) (by decide)⟩

end Drone
